import Mathlib

/-!
Verification of the birthday-greeting-service pipeline.

This file gives a shallow embedding of the service's core logic and proves
or refutes the behavioural claims about it:

* the DynamoDB-backed delivery tracker (`createMessageLog`,
  `updateMessageStatus` from `src/services/dynamodb.ts`),
* the webhook sender handler (`src/handlers/sender.ts`),
* the queue-variant webhook consumer (`processWebhook` in
  `src/handlers/webhook.ts`),
* the due-now locator (`DatabaseService.getUsersWithBirthdayNow`),
* the EventBridge scheduler service (`scheduleMessage` / `deleteSchedule`),
* the users CRUD handler (`src/handlers/users.ts`) and the daily
  aggregation handler (`src/handlers/daily.ts`).

Stores (DynamoDB tables) are modelled as maps from the table key to the
stored item; conditional writes become checks on that map.  Timestamps are
naturals (epoch seconds or abstract ticks).  IANA timezone conversion is an
external collaborator (the tz database), so it enters as an explicit
function parameter.
-/

namespace BirthdayGreeting

/-! ## Calendar dates and ISO `YYYY-MM-DD` parsing

Models the luxon `DateTime.fromISO` validation used by
`validateBirthday` / `validateDate` on date-only strings, and the
arithmetic behind the message-log TTL. -/

structure Date where
  year : Nat
  month : Nat
  day : Nat
deriving DecidableEq

def isLeap (y : Nat) : Bool :=
  (y % 4 == 0 && y % 100 != 0) || (y % 400 == 0)

def daysInMonth (y m : Nat) : Nat :=
  if m = 2 then (if isLeap y then 29 else 28)
  else if m = 4 ∨ m = 6 ∨ m = 9 ∨ m = 11 then 30
  else 31

def digitVal (c : Char) : Nat := c.toNat - 48

/-- Parse a `YYYY-MM-DD` string into a calendar date, rejecting malformed
strings and out-of-range months/days (luxon marks those `isValid = false`). -/
def parseISODate (s : String) : Option Date :=
  match s.toList with
  | [y1, y2, y3, y4, c1, m1, m2, c2, d1, d2] =>
    if y1.isDigit ∧ y2.isDigit ∧ y3.isDigit ∧ y4.isDigit ∧ c1 = '-' ∧
        m1.isDigit ∧ m2.isDigit ∧ c2 = '-' ∧ d1.isDigit ∧ d2.isDigit then
      let y := 1000 * digitVal y1 + 100 * digitVal y2 + 10 * digitVal y3 + digitVal y4
      let m := 10 * digitVal m1 + digitVal m2
      let d := 10 * digitVal d1 + digitVal d2
      if 1 ≤ m ∧ m ≤ 12 ∧ 1 ≤ d ∧ d ≤ daysInMonth y m then some ⟨y, m, d⟩ else none
    else none
  | _ => none

/-- Leap years in `[1, y]`. -/
def leapCount (y : Nat) : Nat := y / 4 - y / 100 + y / 400

def daysBeforeMonth (y m : Nat) : Nat :=
  (List.range (m - 1)).foldl (fun acc i => acc + daysInMonth y (i + 1)) 0

/-- Days from 0001-01-01 to the given date (proleptic Gregorian). -/
def daysSinceCivil (d : Date) : Nat :=
  365 * (d.year - 1) + leapCount (d.year - 1) + daysBeforeMonth d.year d.month + (d.day - 1)

/-- Days since the Unix epoch (valid for dates from 1970 on, which covers
every date the service manipulates). -/
def epochDay (d : Date) : Nat :=
  daysSinceCivil d - daysSinceCivil ⟨1970, 1, 1⟩

/-- UTC midnight of a date, in epoch seconds. -/
def epochSeconds (d : Date) : Nat := 86400 * epochDay d

/-- `DateTime.fromISO(date).plus({days: 1}).setZone('UTC', {keepLocalTime: true}).toSeconds()`:
the next UTC midnight after `date`, used as the message-log TTL. -/
def ttlOf (d : Date) : Nat := 86400 * (epochDay d + 1)

/-- Two-digit zero-padded rendering, as in luxon's `MM` / `dd` format
tokens (all service values are below 100). -/
def pad2 (n : Nat) : String :=
  ⟨[Char.ofNat (n / 10 % 10 + 48), Char.ofNat (n % 10 + 48)]⟩

/-- `DateTime.fromISO(b).toFormat('MM-dd')` on an already-parsed date. -/
def formatMMdd (d : Date) : String := pad2 d.month ++ "-" ++ pad2 d.day

/-! ## Delivery tracker: the message-logs table

`MessageLog` mirrors `src/types/models.ts`; the table is keyed by
`messageId`, so it is a map from `messageId` to the stored item.  A failed
conditional write leaves the table untouched, which the `Except` encoding
reflects: an `error` result carries no new table. -/

inductive MessageStatus
  | PENDING
  | SENT
  | FAILED
  | CANCELLED
deriving DecidableEq

structure MessageLog where
  messageId : String
  status : MessageStatus
  attempts : Nat
  createdAt : Nat
  updatedAt : Nat
  ttl : Nat
deriving DecidableEq

abbrev LogsTable := String → Option MessageLog

inductive DbError
  | invalidDate (date : String)
  | alreadyExists (messageId : String)
  | notFound (messageId : String)
deriving DecidableEq

/-- The item stored by `createMessageLog`. -/
def newMessageLog (userId date : String) (now : Nat) : MessageLog :=
  { messageId := userId ++ "_" ++ date, status := .PENDING, attempts := 0,
    createdAt := now, updatedAt := now, ttl := (parseISODate date).elim 0 ttlOf }

/-- `DynamoDBService.createMessageLog(userId, date)`: validates the date,
then performs a `PutCommand` with
`ConditionExpression: attribute_not_exists(messageId)` for the key
`userId ++ "_" ++ date`, storing `status = PENDING, attempts = 0`. -/
def createMessageLog (t : LogsTable) (userId date : String) (now : Nat) :
    Except DbError (LogsTable × MessageLog) :=
  if (parseISODate date).isSome then
    match t (userId ++ "_" ++ date) with
    | some _ => .error (.alreadyExists (userId ++ "_" ++ date))
    | none =>
      .ok (fun k => if k = userId ++ "_" ++ date then some (newMessageLog userId date now)
            else t k,
          newMessageLog userId date now)
  else .error (.invalidDate date)

/-- `DynamoDBService.updateMessageStatus(messageId, status)`: an
`UpdateCommand` with
`SET status = :status, attempts = attempts + 1, updatedAt = :now` guarded by
`ConditionExpression: attribute_exists(messageId)`. -/
def updateMessageStatus (t : LogsTable) (messageId : String) (status : MessageStatus)
    (now : Nat) : Except DbError (LogsTable × MessageLog) :=
  match t messageId with
  | none => .error (.notFound messageId)
  | some log =>
    let log' : MessageLog :=
      { log with status := status, attempts := log.attempts + 1, updatedAt := now }
    .ok (fun k => if k = messageId then some log' else t k, log')

/-- C1: creating a delivery record for `(userId, date)` is conditional on no
record existing for the key `userId_date`.  The first create stores exactly
one record, initialized with `status = PENDING` and `attempts = 0` (all
other keys untouched); a second create for the same key fails with the
AlreadyExists conflict error.  The failed second call produces no new table
state, so the existing record's status and attempts are untouched by it. -/
theorem createMessageLog_conditional_create (t : LogsTable) (userId date : String)
    (now now2 : Nat) (hdate : (parseISODate date).isSome = true)
    (habs : t (userId ++ "_" ++ date) = none) :
    ∃ t' log,
      createMessageLog t userId date now = .ok (t', log) ∧
      log.status = .PENDING ∧ log.attempts = 0 ∧
      t' (userId ++ "_" ++ date) = some log ∧
      (∀ k, k ≠ userId ++ "_" ++ date → t' k = t k) ∧
      createMessageLog t' userId date now2 =
        .error (.alreadyExists (userId ++ "_" ++ date)) := by
  refine ⟨fun k => if k = userId ++ "_" ++ date then some (newMessageLog userId date now)
      else t k,
    newMessageLog userId date now, ?_, rfl, rfl, if_pos rfl, ?_, ?_⟩
  · unfold createMessageLog
    simp only [hdate, if_true, habs]
  · intro k hk
    exact if_neg hk
  · unfold createMessageLog
    simp only [hdate, if_true, if_pos rfl]

theorem createMessageLog_conditional_create_witness :
    (parseISODate "2024-06-12").isSome = true ∧
    ((fun _ : String => (none : Option MessageLog)) ("u1" ++ "_" ++ "2024-06-12") = none) ∧
    (∃ t' log,
      createMessageLog (fun _ => none) "u1" "2024-06-12" 0 = .ok (t', log) ∧
      log.status = .PENDING ∧ log.attempts = 0 ∧
      t' ("u1" ++ "_" ++ "2024-06-12") = some log ∧
      (∀ k, k ≠ "u1" ++ "_" ++ "2024-06-12" → t' k = (fun _ => none) k) ∧
      createMessageLog t' "u1" "2024-06-12" 1 =
        .error (.alreadyExists ("u1" ++ "_" ++ "2024-06-12"))) :=
  ⟨by decide, rfl,
    createMessageLog_conditional_create (fun _ => none) "u1" "2024-06-12" 0 1 (by decide) rfl⟩

/-- C6: `updateMessageStatus` on an existing record sets the target status,
increments `attempts` by exactly one and updates `updatedAt`, leaving the
key's identity, `createdAt` and every other key of the table unchanged; on a
missing key it fails with NotFound and creates nothing (the error result
carries no table state). -/
theorem updateMessageStatus_advances (t : LogsTable) (messageId : String)
    (status : MessageStatus) (now : Nat) :
    (t messageId = none →
      updateMessageStatus t messageId status now = .error (.notFound messageId)) ∧
    (∀ log, t messageId = some log →
      ∃ t' log', updateMessageStatus t messageId status now = .ok (t', log') ∧
        log'.status = status ∧ log'.attempts = log.attempts + 1 ∧
        log'.updatedAt = now ∧ log'.messageId = log.messageId ∧
        log'.createdAt = log.createdAt ∧
        t' messageId = some log' ∧ (∀ k, k ≠ messageId → t' k = t k)) := by
  constructor
  · intro h
    unfold updateMessageStatus
    rw [h]
  · intro log h
    refine ⟨fun k => if k = messageId then
        some { log with status := status, attempts := log.attempts + 1, updatedAt := now }
        else t k,
      { log with status := status, attempts := log.attempts + 1, updatedAt := now },
      ?_, rfl, rfl, rfl, rfl, rfl, if_pos rfl, ?_⟩
    · unfold updateMessageStatus
      rw [h]
    · intro k hk
      exact if_neg hk

def sampleLog : MessageLog :=
  { messageId := "u1_2024-06-12", status := .PENDING, attempts := 0,
    createdAt := 0, updatedAt := 0, ttl := 0 }

def sampleLogs : LogsTable :=
  fun k => if k = "u1_2024-06-12" then some sampleLog else none

theorem updateMessageStatus_advances_witness :
    sampleLogs "u1_2024-06-12" = some sampleLog ∧
    (∃ t' log', updateMessageStatus sampleLogs "u1_2024-06-12" .SENT 5 = .ok (t', log') ∧
      log'.status = .SENT ∧ log'.attempts = sampleLog.attempts + 1 ∧
      log'.updatedAt = 5 ∧ log'.messageId = sampleLog.messageId ∧
      log'.createdAt = sampleLog.createdAt ∧
      t' "u1_2024-06-12" = some log' ∧ (∀ k, k ≠ "u1_2024-06-12" → t' k = sampleLogs k)) :=
  ⟨rfl, (updateMessageStatus_advances sampleLogs "u1_2024-06-12" .SENT 5).2 sampleLog rfl⟩

/-! ## The sender handler (`src/handlers/sender.ts`)

One invocation of the Lambda for a message `(userId, today)`:

1. look the log up; if its status is already `SENT`, return 200 without
   calling the webhook;
2. if `existingLog?.attempts && existingLog.attempts >= MAX_ATTEMPTS`
   (JS truthiness: `attempts = 0` is falsy), return 500 without calling;
3. create the log when absent; call the webhook;
4. on success `updateMessageStatus(_, 'SENT')` and return 200; on failure
   `updateMessageStatus(_, 'FAILED')`, then rethrow while
   `attempts < MAX_ATTEMPTS` (surfaced as 500 by the outer catch) or
   return the terminal 500.

The outbound call's outcome is an input of the step (`WebhookOutcome`);
`webhookCalled` / `webhookOk` record whether the call was made and whether
it succeeded. -/

def MAX_ATTEMPTS : Nat := 3

inductive WebhookOutcome
  | ok
  | fail
deriving DecidableEq

inductive SenderResult
  | alreadySent
  | maxAttempts
  | success (attempts : Nat)
  | retryThrow (attempts : Nat)
  | terminalFailure (attempts : Nat)
  | internalError
deriving DecidableEq

structure SenderStep where
  table : LogsTable
  result : SenderResult
  webhookCalled : Bool
  webhookOk : Bool

/-- The inner try of the handler: the webhook call followed by the status
update recording the attempt. -/
def attemptSend (t1 : LogsTable) (messageId : String) (now : Nat)
    (w : WebhookOutcome) : SenderStep :=
  match w with
  | .ok =>
    match updateMessageStatus t1 messageId .SENT now with
    | .ok (t2, log') => ⟨t2, .success log'.attempts, true, true⟩
    | .error _ => ⟨t1, .internalError, true, true⟩
  | .fail =>
    match updateMessageStatus t1 messageId .FAILED now with
    | .ok (t2, log') =>
      if log'.attempts < MAX_ATTEMPTS then ⟨t2, .retryThrow log'.attempts, true, false⟩
      else ⟨t2, .terminalFailure log'.attempts, true, false⟩
    | .error _ => ⟨t1, .internalError, true, false⟩

/-- One invocation of the sender handler; the message id is
`userId ++ "_" ++ today`. -/
def senderHandler (t : LogsTable) (userId today : String) (now : Nat)
    (w : WebhookOutcome) : SenderStep :=
  match t (userId ++ "_" ++ today) with
  | some log =>
    if log.status = .SENT then ⟨t, .alreadySent, false, false⟩
    else if log.attempts ≠ 0 ∧ MAX_ATTEMPTS ≤ log.attempts then
      ⟨t, .maxAttempts, false, false⟩
    else attemptSend t (userId ++ "_" ++ today) now w
  | none =>
    match createMessageLog t userId today now with
    | .error _ => ⟨t, .internalError, false, false⟩
    | .ok (t1, _) => attemptSend t1 (userId ++ "_" ++ today) now w

/-- Sequential repeated invocations, each with its webhook outcome. -/
def runSender (t : LogsTable) (userId today : String) (now : Nat) :
    List WebhookOutcome → LogsTable × List SenderStep
  | [] => (t, [])
  | w :: ws =>
    let s := senderHandler t userId today now w
    let r := runSender s.table userId today now ws
    (r.1, s :: r.2)

/-- Number of invocations in which the outbound webhook call was made and
succeeded. -/
def successfulCalls (steps : List SenderStep) : Nat :=
  steps.countP fun s => s.webhookCalled && s.webhookOk

/-- Number of invocations in which the outbound webhook call was made. -/
def callCount (steps : List SenderStep) : Nat :=
  steps.countP fun s => s.webhookCalled

theorem senderHandler_sent_noop (t : LogsTable) (userId today : String) (now : Nat)
    (w : WebhookOutcome) (log : MessageLog)
    (hkey : t (userId ++ "_" ++ today) = some log) (hst : log.status = .SENT) :
    senderHandler t userId today now w = ⟨t, .alreadySent, false, false⟩ := by
  unfold senderHandler
  rw [hkey]
  exact if_pos hst

theorem attemptSend_ok_sent (t1 : LogsTable) (messageId : String) (now : Nat)
    (log : MessageLog) (hkey : t1 messageId = some log) :
    ∃ log', (attemptSend t1 messageId now .ok).table messageId = some log' ∧
      log'.status = .SENT ∧ log'.attempts = log.attempts + 1 := by
  unfold attemptSend updateMessageStatus
  rw [hkey]
  exact ⟨_, if_pos rfl, rfl, rfl⟩

theorem attemptSend_called (t1 : LogsTable) (messageId : String) (now : Nat)
    (w : WebhookOutcome) :
    (attemptSend t1 messageId now w).webhookCalled = true ∧
    (attemptSend t1 messageId now w).webhookOk = (w == .ok) := by
  cases w
  · unfold attemptSend
    cases h : updateMessageStatus t1 messageId .SENT now with
    | error e => simp [h]
    | ok p =>
      obtain ⟨t2, lg⟩ := p
      simp [h]
  · unfold attemptSend
    cases h : updateMessageStatus t1 messageId .FAILED now with
    | error e => simp [h]
    | ok p =>
      obtain ⟨t2, lg⟩ := p
      simp only [h]
      split <;> simp

theorem createMessageLog_ok_key (t t1 : LogsTable) (userId date : String) (now : Nat)
    (log : MessageLog) (h : createMessageLog t userId date now = .ok (t1, log)) :
    t1 (userId ++ "_" ++ date) = some log := by
  unfold createMessageLog at h
  split at h
  · split at h
    · exact absurd h (by simp)
    · injection h with h'
      injection h' with h1 h2
      rw [← h1, ← h2]
      simp
  · exact absurd h (by simp)

theorem attemptSend_ok_table (t1 : LogsTable) (messageId : String) (now : Nat)
    (w : WebhookOutcome) (log : MessageLog) (hkey : t1 messageId = some log)
    (hok : (attemptSend t1 messageId now w).webhookOk = true) :
    ∃ log', (attemptSend t1 messageId now w).table messageId = some log' ∧
      log'.status = .SENT := by
  cases w with
  | ok =>
    obtain ⟨log', h1, h2, _⟩ := attemptSend_ok_sent t1 messageId now log hkey
    exact ⟨log', h1, h2⟩
  | fail =>
    rw [(attemptSend_called t1 messageId now .fail).2] at hok
    exact absurd hok (by decide)

theorem senderHandler_ok_sent (t : LogsTable) (userId today : String) (now : Nat)
    (w : WebhookOutcome) (hok : (senderHandler t userId today now w).webhookOk = true) :
    ∃ log', (senderHandler t userId today now w).table (userId ++ "_" ++ today) = some log' ∧
      log'.status = .SENT := by
  unfold senderHandler at hok ⊢
  cases hkey : t (userId ++ "_" ++ today) with
  | some log =>
    simp only [hkey] at hok ⊢
    by_cases hst : log.status = .SENT
    · simp only [if_pos hst] at hok
      exact absurd hok (by decide)
    · simp only [if_neg hst] at hok ⊢
      by_cases hmax : log.attempts ≠ 0 ∧ MAX_ATTEMPTS ≤ log.attempts
      · simp only [if_pos hmax] at hok
        exact absurd hok (by decide)
      · simp only [if_neg hmax] at hok ⊢
        exact attemptSend_ok_table t (userId ++ "_" ++ today) now w log hkey hok
  | none =>
    simp only [hkey] at hok ⊢
    cases hc : createMessageLog t userId today now with
    | error e =>
      simp only [hc] at hok
      exact absurd hok (by decide)
    | ok p =>
      obtain ⟨t1, lg⟩ := p
      simp only [hc] at hok ⊢
      exact attemptSend_ok_table t1 (userId ++ "_" ++ today) now w lg
        (createMessageLog_ok_key t t1 userId today now lg hc) hok

theorem runSender_sent_frozen (userId today : String) (now : Nat)
    (ws : List WebhookOutcome) :
    ∀ t log, t (userId ++ "_" ++ today) = some log → log.status = .SENT →
      (runSender t userId today now ws).1 = t ∧
      successfulCalls (runSender t userId today now ws).2 = 0 := by
  induction ws with
  | nil => intro t log _ _; exact ⟨rfl, rfl⟩
  | cons w ws ih =>
    intro t log hkey hst
    have hstep := senderHandler_sent_noop t userId today now w log hkey hst
    obtain ⟨h1, h2⟩ := ih t log hkey hst
    simp only [runSender, hstep]
    refine ⟨h1, ?_⟩
    simp only [successfulCalls] at h2 ⊢
    rw [List.countP_cons, h2]
    simp

/-- C2: repeated invocations of the sender for a fixed `(userId, today)`
produce at most one successful webhook call, and once the delivery record is
`SENT` every invocation is a no-op: it does not call the webhook and
returns the table unchanged (so exactly one record, the one that reached
`SENT`, survives; the keyed table holds at most one record per id by
construction). -/
theorem sender_no_double_send (t : LogsTable) (userId today : String) (now : Nat)
    (ws : List WebhookOutcome) :
    (∀ log w, t (userId ++ "_" ++ today) = some log → log.status = .SENT →
      senderHandler t userId today now w = ⟨t, .alreadySent, false, false⟩) ∧
    successfulCalls (runSender t userId today now ws).2 ≤ 1 := by
  refine ⟨fun log w hkey hst => senderHandler_sent_noop t userId today now w log hkey hst, ?_⟩
  induction ws generalizing t with
  | nil => exact Nat.zero_le 1
  | cons w ws ih =>
    simp only [runSender, successfulCalls] at ih ⊢
    rw [List.countP_cons]
    cases hok : (senderHandler t userId today now w).webhookOk with
    | false =>
      rw [Bool.and_false, if_neg (by decide : ¬(false = true)), Nat.add_zero]
      exact ih _
    | true =>
      obtain ⟨log', hkey', hst'⟩ := senderHandler_ok_sent t userId today now w hok
      have hfrozen := (runSender_sent_frozen userId today now ws _ log' hkey' hst').2
      simp only [successfulCalls] at hfrozen
      rw [hfrozen]
      split <;> omega

def sentLog : MessageLog :=
  { messageId := "u1_2024-06-12", status := .SENT, attempts := 1,
    createdAt := 0, updatedAt := 0, ttl := 0 }

def sentLogs : LogsTable :=
  fun k => if k = "u1_2024-06-12" then some sentLog else none

theorem sender_no_double_send_witness :
    sentLogs ("u1" ++ "_" ++ "2024-06-12") = some sentLog ∧
    sentLog.status = .SENT ∧
    senderHandler sentLogs "u1" "2024-06-12" 0 .ok =
      ⟨sentLogs, .alreadySent, false, false⟩ ∧
    successfulCalls (runSender (fun _ => none) "u1" "2024-06-12" 0
      [.fail, .ok, .ok, .fail]).2 ≤ 1 :=
  ⟨by decide, rfl,
    (sender_no_double_send sentLogs "u1" "2024-06-12" 0 []).1 sentLog .ok (by decide) rfl,
    (sender_no_double_send (fun _ => none) "u1" "2024-06-12" 0 [.fail, .ok, .ok, .fail]).2⟩

theorem attemptSend_fail_failed (t1 : LogsTable) (messageId : String) (now : Nat)
    (log : MessageLog) (hkey : t1 messageId = some log) :
    ∃ log', (attemptSend t1 messageId now .fail).table messageId = some log' ∧
      log'.status = .FAILED ∧ log'.attempts = log.attempts + 1 ∧
      (attemptSend t1 messageId now .fail).webhookCalled = true := by
  unfold attemptSend updateMessageStatus
  simp only [hkey]
  split
  · exact ⟨_, if_pos rfl, rfl, rfl, rfl⟩
  · exact ⟨_, if_pos rfl, rfl, rfl, rfl⟩

theorem senderHandler_max_noop (t : LogsTable) (userId today : String) (now : Nat)
    (w : WebhookOutcome) (log : MessageLog)
    (hkey : t (userId ++ "_" ++ today) = some log) (hst : log.status ≠ .SENT)
    (ha : log.attempts ≠ 0) (hmax : MAX_ATTEMPTS ≤ log.attempts) :
    senderHandler t userId today now w = ⟨t, .maxAttempts, false, false⟩ := by
  unfold senderHandler
  simp only [hkey]
  rw [if_neg hst, if_pos ⟨ha, hmax⟩]

theorem senderHandler_fail_step (t : LogsTable) (userId today : String) (now : Nat)
    (log : MessageLog) (hkey : t (userId ++ "_" ++ today) = some log)
    (hst : log.status ≠ .SENT) (helig : log.attempts < MAX_ATTEMPTS) :
    ∃ log', (senderHandler t userId today now .fail).table (userId ++ "_" ++ today) = some log' ∧
      log'.status = .FAILED ∧ log'.attempts = log.attempts + 1 ∧
      (senderHandler t userId today now .fail).webhookCalled = true := by
  unfold senderHandler
  simp only [hkey]
  rw [if_neg hst, if_neg (fun hc => absurd hc.2 (Nat.not_le.mpr helig))]
  exact attemptSend_fail_failed t (userId ++ "_" ++ today) now log hkey

theorem senderHandler_none_fail (t : LogsTable) (userId today : String) (now : Nat)
    (hdate : (parseISODate today).isSome = true)
    (hkey : t (userId ++ "_" ++ today) = none) :
    ∃ log', (senderHandler t userId today now .fail).table (userId ++ "_" ++ today) = some log' ∧
      log'.status = .FAILED ∧ log'.attempts = 1 ∧
      (senderHandler t userId today now .fail).webhookCalled = true := by
  have hc : createMessageLog t userId today now =
      .ok (fun k => if k = userId ++ "_" ++ today then some (newMessageLog userId today now)
            else t k,
          newMessageLog userId today now) := by
    unfold createMessageLog
    simp only [hdate, if_true, hkey]
  unfold senderHandler
  simp only [hkey, hc]
  obtain ⟨log', h1, h2, h3, h4⟩ :=
    attemptSend_fail_failed
      (fun k => if k = userId ++ "_" ++ today then some (newMessageLog userId today now) else t k)
      (userId ++ "_" ++ today) now (newMessageLog userId today now) (if_pos rfl)
  exact ⟨log', h1, h2, h3, h4⟩

theorem runSender_fail_aux (userId today : String) (now : Nat) :
    ∀ (n : Nat) (t : LogsTable) (log : MessageLog) (a : Nat),
      t (userId ++ "_" ++ today) = some log → log.status = .FAILED →
      log.attempts = a → 1 ≤ a → a ≤ 3 →
      (∃ log', (runSender t userId today now (List.replicate n .fail)).1
          (userId ++ "_" ++ today) = some log' ∧
        log'.status = .FAILED ∧ log'.attempts = min (a + n) 3) ∧
      callCount (runSender t userId today now (List.replicate n .fail)).2 = min n (3 - a) := by
  intro n
  induction n with
  | zero =>
    intro t log a hkey hst hat h1 h3
    refine ⟨⟨log, hkey, hst, ?_⟩, ?_⟩
    · omega
    · simp [callCount, runSender]
  | succ n ih =>
    intro t log a hkey hst hat h1 h3
    have hne : log.status ≠ .SENT := by rw [hst]; decide
    rw [List.replicate_succ]
    by_cases hlt : a < 3
    · obtain ⟨log', k1, k2, k3, k4⟩ :=
        senderHandler_fail_step t userId today now log hkey hne (by rw [hat]; exact hlt)
      obtain ⟨⟨log'', m1, m2, m3⟩, mcount⟩ :=
        ih (senderHandler t userId today now .fail).table log' (a + 1) k1 k2 (by omega) (by omega)
          (by omega)
      simp only [runSender]
      refine ⟨⟨log'', m1, m2, by omega⟩, ?_⟩
      simp only [callCount, List.countP_cons] at mcount ⊢
      rw [mcount, k4]
      simp
      omega
    · have ha3 : a = 3 := by omega
      have hstep := senderHandler_max_noop t userId today now .fail log hkey hne
        (by omega) (by rw [hat, ha3]; decide)
      obtain ⟨⟨log'', m1, m2, m3⟩, mcount⟩ := ih t log a hkey hst hat h1 h3
      simp only [runSender, hstep]
      refine ⟨⟨log'', m1, m2, by omega⟩, ?_⟩
      simp only [callCount, List.countP_cons] at mcount ⊢
      rw [mcount]
      simp only [Bool.false_eq_true, if_false]
      omega

/-- C4: for a user whose webhook call always fails, repeated sender
invocations accumulate exactly `attempts = 3` (the `MAX_ATTEMPTS` cap) on
the delivery record, which is then terminal `FAILED`; invocations beyond
the cap make no further webhook call and no further attempts increment
(the total number of webhook calls over `n` invocations is `min n 3`). -/
theorem sender_max_attempts_cap (t : LogsTable) (userId today : String) (now : Nat) (n : Nat)
    (hdate : (parseISODate today).isSome = true)
    (hempty : t (userId ++ "_" ++ today) = none) :
    (n = 0 → (runSender t userId today now (List.replicate n .fail)).1
      (userId ++ "_" ++ today) = none) ∧
    (1 ≤ n → ∃ log', (runSender t userId today now (List.replicate n .fail)).1
        (userId ++ "_" ++ today) = some log' ∧
      log'.status = .FAILED ∧ log'.attempts = min n 3) ∧
    callCount (runSender t userId today now (List.replicate n .fail)).2 = min n 3 := by
  cases n with
  | zero =>
    exact ⟨fun _ => hempty, fun h => absurd h (by omega), rfl⟩
  | succ n =>
    obtain ⟨log', k1, k2, k3, k4⟩ := senderHandler_none_fail t userId today now hdate hempty
    obtain ⟨⟨log'', m1, m2, m3⟩, mcount⟩ :=
      runSender_fail_aux userId today now n (senderHandler t userId today now .fail).table
        log' 1 k1 k2 k3 (by omega) (by omega)
    rw [List.replicate_succ]
    refine ⟨fun h => absurd h (by omega), fun _ => ?_, ?_⟩
    · simp only [runSender]
      exact ⟨log'', m1, m2, by omega⟩
    · simp only [runSender, callCount, List.countP_cons]
      simp only [callCount] at mcount
      rw [mcount, k4]
      simp
      omega

theorem sender_max_attempts_cap_witness :
    (parseISODate "2024-06-12").isSome = true ∧
    ((fun _ : String => (none : Option MessageLog)) ("u1" ++ "_" ++ "2024-06-12") = none) ∧
    ((5 = 0 → (runSender (fun _ => none) "u1" "2024-06-12" 0 (List.replicate 5 .fail)).1
        ("u1" ++ "_" ++ "2024-06-12") = none) ∧
      (1 ≤ 5 → ∃ log', (runSender (fun _ => none) "u1" "2024-06-12" 0
          (List.replicate 5 .fail)).1 ("u1" ++ "_" ++ "2024-06-12") = some log' ∧
        log'.status = .FAILED ∧ log'.attempts = min 5 3) ∧
      callCount (runSender (fun _ => none) "u1" "2024-06-12" 0
        (List.replicate 5 .fail)).2 = min 5 3) :=
  ⟨by decide, rfl,
    sender_max_attempts_cap (fun _ => none) "u1" "2024-06-12" 0 5 (by decide) rfl⟩

theorem attemptSend_records (t1 : LogsTable) (messageId : String) (now : Nat)
    (w : WebhookOutcome) (log : MessageLog) (hkey : t1 messageId = some log) :
    ∃ log', (attemptSend t1 messageId now w).table messageId = some log' ∧
      log'.attempts = log.attempts + 1 ∧ (log'.status = .SENT ↔ w = .ok) ∧
      (w = .fail → log'.status = .FAILED) := by
  cases w with
  | ok =>
    obtain ⟨log', h1, h2, h3⟩ := attemptSend_ok_sent t1 messageId now log hkey
    exact ⟨log', h1, h3, iff_of_true h2 rfl, fun h => absurd h (by decide)⟩
  | fail =>
    obtain ⟨log', h1, h2, h3, _⟩ := attemptSend_fail_failed t1 messageId now log hkey
    exact ⟨log', h1, h3, iff_of_false (by rw [h2]; decide) (by decide), fun _ => h2⟩

theorem senderHandler_none_step (t : LogsTable) (userId today : String) (now : Nat)
    (w : WebhookOutcome) (hdate : (parseISODate today).isSome = true)
    (hkey : t (userId ++ "_" ++ today) = none) :
    (senderHandler t userId today now w).webhookCalled = true ∧
    ∃ log', (senderHandler t userId today now w).table (userId ++ "_" ++ today) = some log' ∧
      log'.attempts = 1 ∧ (log'.status = .SENT ↔ w = .ok) ∧
      (w = .fail → log'.status = .FAILED) := by
  have hc : createMessageLog t userId today now =
      .ok (fun k => if k = userId ++ "_" ++ today then some (newMessageLog userId today now)
            else t k,
          newMessageLog userId today now) := by
    unfold createMessageLog
    simp only [hdate, if_true, hkey]
  unfold senderHandler
  simp only [hkey, hc]
  refine ⟨(attemptSend_called _ _ _ _).1, ?_⟩
  obtain ⟨log', h1, h2, h3, h4⟩ :=
    attemptSend_records
      (fun k => if k = userId ++ "_" ++ today then some (newMessageLog userId today now) else t k)
      (userId ++ "_" ++ today) now w (newMessageLog userId today now) (if_pos rfl)
  exact ⟨log', h1, by simpa [newMessageLog] using h2, h3, h4⟩

/-! ## Queue-variant webhook consumer (`src/handlers/webhook.ts`)

`processWebhook` consults the per-user tracker (`canSendGreeting`), POSTs
the webhook, and writes `lastGreetingSentAt` (`updateLastGreetingSent`)
only after an ok response.  On a failed call it rethrows — the message is
left to SQS redelivery and the DLQ — performing no database write at all.
`greetingUpdates` records the user ids whose tracker row was written. -/

inductive ProcessOutcome
  | skipped
  | sentOk
  | propagatedError
deriving DecidableEq

structure ProcessStep where
  greetingUpdates : List String
  outcome : ProcessOutcome
deriving DecidableEq

def processWebhook (userId : String) (canSend : Bool) (w : WebhookOutcome) : ProcessStep :=
  if canSend then
    match w with
    | .ok => ⟨[userId], .sentOk⟩
    | .fail => ⟨[], .propagatedError⟩
  else ⟨[], .skipped⟩

/-- C3 counterexample: the claim says the Webhook Dispatcher updates the
record to FAILED (incrementing attempts) before propagating a failed call's
error.  The queue-variant dispatcher `processWebhook` — one of the two
cited dispatcher implementations — propagates the error on a failed call
while performing no tracker update whatsoever. -/
theorem processWebhook_fail_records_nothing :
    (processWebhook "u1" true .fail).outcome = .propagatedError ∧
    (processWebhook "u1" true .fail).greetingUpdates = [] :=
  ⟨rfl, rfl⟩

/-- C3 (amended): the sender-handler dispatcher updates the record to
`SENT` exactly when the outbound call returned Ok, and on a failed call
records `FAILED` with exactly one attempts increment; an invocation that
makes no call (already `SENT`, or max attempts reached) records nothing.
The queue-variant dispatcher `processWebhook` writes its tracker
(`lastGreetingSentAt`) only on Ok, and on a failed call propagates the
error with no tracker update — attempt accounting there is delegated to
the queue's redelivery counters. -/
theorem dispatcher_attempt_recording (t : LogsTable) (userId today : String)
    (now : Nat) (w : WebhookOutcome) :
    (∀ log, t (userId ++ "_" ++ today) = some log → log.status ≠ .SENT →
      log.attempts < MAX_ATTEMPTS →
      (senderHandler t userId today now w).webhookCalled = true ∧
      ∃ log', (senderHandler t userId today now w).table (userId ++ "_" ++ today) = some log' ∧
        log'.attempts = log.attempts + 1 ∧ (log'.status = .SENT ↔ w = .ok) ∧
        (w = .fail → log'.status = .FAILED)) ∧
    (∀ log, t (userId ++ "_" ++ today) = some log →
      (log.status = .SENT ∨ (log.attempts ≠ 0 ∧ MAX_ATTEMPTS ≤ log.attempts)) →
      (senderHandler t userId today now w).webhookCalled = false ∧
      (senderHandler t userId today now w).table = t) ∧
    (t (userId ++ "_" ++ today) = none → (parseISODate today).isSome = true →
      (senderHandler t userId today now w).webhookCalled = true ∧
      ∃ log', (senderHandler t userId today now w).table (userId ++ "_" ++ today) = some log' ∧
        log'.attempts = 1 ∧ (log'.status = .SENT ↔ w = .ok) ∧
        (w = .fail → log'.status = .FAILED)) ∧
    (∀ uid canSend, (processWebhook uid canSend .fail).greetingUpdates = [] ∧
      (canSend = true → (processWebhook uid canSend .fail).outcome = .propagatedError) ∧
      (processWebhook uid canSend .ok).greetingUpdates = if canSend then [uid] else []) := by
  refine ⟨?_, ?_, ?_, ?_⟩
  · intro log hkey hst helig
    unfold senderHandler
    simp only [hkey]
    rw [if_neg hst, if_neg (fun hc => absurd hc.2 (Nat.not_le.mpr helig))]
    exact ⟨(attemptSend_called _ _ _ _).1,
      attemptSend_records t (userId ++ "_" ++ today) now w log hkey⟩
  · intro log hkey hdisj
    by_cases hst : log.status = .SENT
    · rw [senderHandler_sent_noop t userId today now w log hkey hst]
      exact ⟨rfl, rfl⟩
    · obtain ⟨ha, hmax⟩ := hdisj.resolve_left hst
      rw [senderHandler_max_noop t userId today now w log hkey hst ha hmax]
      exact ⟨rfl, rfl⟩
  · intro hkey hdate
    exact senderHandler_none_step t userId today now w hdate hkey
  · intro uid canSend
    cases canSend <;> simp [processWebhook]

theorem dispatcher_attempt_recording_witness :
    sampleLogs ("u1" ++ "_" ++ "2024-06-12") = some sampleLog ∧
    sampleLog.status ≠ .SENT ∧ sampleLog.attempts < MAX_ATTEMPTS ∧
    ((senderHandler sampleLogs "u1" "2024-06-12" 7 .fail).webhookCalled = true ∧
      ∃ log', (senderHandler sampleLogs "u1" "2024-06-12" 7 .fail).table
          ("u1" ++ "_" ++ "2024-06-12") = some log' ∧
        log'.attempts = sampleLog.attempts + 1 ∧
        (log'.status = .SENT ↔ WebhookOutcome.fail = .ok) ∧
        (WebhookOutcome.fail = .fail → log'.status = .FAILED)) :=
  ⟨by decide, by decide, by decide,
    (dispatcher_attempt_recording sampleLogs "u1" "2024-06-12" 7 .fail).1 sampleLog
      (by decide) (by decide) (by decide)⟩

/-! ## The due-now locator (`DatabaseService.getUsersWithBirthdayNow`)

The SQL query filters the users table by, for each user:

* `EXTRACT(HOUR FROM NOW() AT TIME ZONE location) = 9`,
* `EXTRACT(MINUTE FROM NOW() AT TIME ZONE location) BETWEEN 0 AND 14`,
* `EXTRACT(MONTH FROM birthday) = EXTRACT(MONTH FROM NOW() AT TIME ZONE location)`
  and the same for `DAY`,
* `last_greeting_sent_at IS NULL OR last_greeting_sent_at < (NOW() AT TIME ZONE location)::date`.

`AT TIME ZONE` is the external IANA timezone conversion, so it enters the
model as a function `TzDatabase` from a zone name and a UTC instant to the
local calendar datetime.  `last_greeting_sent_at` is a `timestamptz`
(a UTC instant, epoch seconds); the cast `::date` yields the current local
date, whose midnight-UTC instant the stored timestamp is compared with. -/

structure LocalDateTime where
  year : Nat
  month : Nat
  day : Nat
  hour : Nat
  minute : Nat
deriving DecidableEq

abbrev TzDatabase := String → Nat → LocalDateTime

structure PgUser where
  id : String
  firstName : String
  lastName : String
  birthday : Date
  location : String
  lastGreetingSentAt : Option Nat
deriving DecidableEq

def localDate (l : LocalDateTime) : Date := ⟨l.year, l.month, l.day⟩

/-- The row filter of the due-now query, as written in the source. -/
def dueNowCode (tzdb : TzDatabase) (now : Nat) (u : PgUser) : Bool :=
  decide ((tzdb u.location now).hour = 9) &&
  decide ((tzdb u.location now).minute ≤ 14) &&
  decide (u.birthday.month = (tzdb u.location now).month) &&
  decide (u.birthday.day = (tzdb u.location now).day) &&
  (match u.lastGreetingSentAt with
   | none => true
   | some ts => decide (ts < epochSeconds (localDate (tzdb u.location now))))

def getUsersWithBirthdayNow (tzdb : TzDatabase) (now : Nat) (users : List PgUser) :
    List PgUser :=
  users.filter (dueNowCode tzdb now)

/-- Modelled from the spec: the claim's due-now condition, whose dedup
clause requires that no greeting has been sent yet this local *year*
(`lastGreetingSentAt` null or dated before the start of the current local
year).  Stated only to compare with `dueNowCode`, which the source defines. -/
def dueNowSpecYearly (tzdb : TzDatabase) (now : Nat) (u : PgUser) : Bool :=
  decide ((tzdb u.location now).hour = 9) &&
  decide ((tzdb u.location now).minute ≤ 14) &&
  decide (u.birthday.month = (tzdb u.location now).month) &&
  decide (u.birthday.day = (tzdb u.location now).day) &&
  (match u.lastGreetingSentAt with
   | none => true
   | some ts => decide (ts < epochSeconds ⟨(tzdb u.location now).year, 1, 1⟩))

/-- Fixture timezone conversion at the instant 2024-06-12T01:05Z:
Singapore (UTC+8) reads 09:05 on June 12, New York (UTC-4, June is EDT)
reads 21:05 on June 11. -/
def tzFixture : TzDatabase := fun loc _ =>
  if loc = "Asia/Singapore" then ⟨2024, 6, 12, 9, 5⟩
  else if loc = "America/New_York" then ⟨2024, 6, 11, 21, 5⟩
  else ⟨1970, 1, 1, 0, 0⟩

/-- 2024-06-12T01:05:00Z in epoch seconds. -/
def instantJune12 : Nat := epochSeconds ⟨2024, 6, 12⟩ + 3900

/-- A user in their 9 AM Singapore window on their birthday whose last
greeting was sent earlier in the same year (2024-03-01). -/
def userSingapore : PgUser :=
  { id := "u-sg", firstName := "John", lastName := "Doe", birthday := ⟨1990, 6, 12⟩,
    location := "Asia/Singapore", lastGreetingSentAt := some (epochSeconds ⟨2024, 3, 1⟩) }

/-- A user at the same UTC instant whose own local time is outside the
window (21:05 the previous day, New York). -/
def userNewYork : PgUser :=
  { id := "u-ny", firstName := "Jane", lastName := "Smith", birthday := ⟨1990, 6, 12⟩,
    location := "America/New_York", lastGreetingSentAt := none }

/-- C5 counterexample: the code's dedup clause compares
`last_greeting_sent_at` with the start of the current local *day*, not the
current local *year* as the claim states.  A user greeted on 2024-03-01
who is in their 9 AM window on 2024-06-12 is selected by the code's filter
but excluded by the claim's year-based condition. -/
theorem dueNow_day_vs_year_counterexample :
    dueNowCode tzFixture instantJune12 userSingapore = true ∧
    dueNowSpecYearly tzFixture instantJune12 userSingapore = false := by
  constructor <;> decide

theorem tzFixture_minute_lt (loc : String) (i : Nat) : (tzFixture loc i).minute < 60 := by
  unfold tzFixture
  split
  · decide
  · split
    · decide
    · decide

/-- C5 (amended) due-now condition: the user's own local time is in the
`[9:00, 9:15)` window (expressed in minutes of the local day), the local
date's month/day equal the birthday's, and no greeting has been sent since
the start of the current local *day*. -/
def dueNowAmended (tzdb : TzDatabase) (now : Nat) (u : PgUser) : Prop :=
  540 ≤ 60 * (tzdb u.location now).hour + (tzdb u.location now).minute ∧
  60 * (tzdb u.location now).hour + (tzdb u.location now).minute < 555 ∧
  u.birthday.month = (tzdb u.location now).month ∧
  u.birthday.day = (tzdb u.location now).day ∧
  ∀ ts, u.lastGreetingSentAt = some ts →
    ts < epochSeconds ⟨(tzdb u.location now).year, (tzdb u.location now).month,
      (tzdb u.location now).day⟩

/-- C5 (amended): whenever the timezone conversion yields well-formed
minutes, the due-now locator returns exactly the users whose own local
time is in `[9:00, 9:15)`, whose local date matches their birthday's
month/day, and whose last greeting (if any) predates the start of the
current local day; any user whose own local time at the same UTC instant
falls outside that window is excluded. -/
theorem getUsersWithBirthdayNow_returns_due (tzdb : TzDatabase) (now : Nat)
    (users : List PgUser) (u : PgUser)
    (hwf : ∀ loc i, (tzdb loc i).minute < 60) :
    u ∈ getUsersWithBirthdayNow tzdb now users ↔ u ∈ users ∧ dueNowAmended tzdb now u := by
  rw [getUsersWithBirthdayNow, List.mem_filter]
  refine and_congr_right fun _ => ?_
  have hm := hwf u.location now
  unfold dueNowCode dueNowAmended
  cases hgl : u.lastGreetingSentAt with
  | none =>
    simp only [Bool.and_true, Bool.and_eq_true, decide_eq_true_eq]
    constructor
    · rintro ⟨⟨⟨h9, h14⟩, hmo⟩, hd⟩
      exact ⟨by omega, by omega, hmo, hd, fun ts hts => nomatch hts⟩
    · rintro ⟨h1, h2, hmo, hd, _⟩
      exact ⟨⟨⟨by omega, by omega⟩, hmo⟩, hd⟩
  | some ts =>
    simp only [Bool.and_eq_true, decide_eq_true_eq]
    constructor
    · rintro ⟨⟨⟨⟨h9, h14⟩, hmo⟩, hd⟩, hl⟩
      refine ⟨by omega, by omega, hmo, hd, fun ts' hts => ?_⟩
      cases hts
      exact hl
    · rintro ⟨h1, h2, hmo, hd, hl⟩
      exact ⟨⟨⟨⟨by omega, by omega⟩, hmo⟩, hd⟩, hl ts rfl⟩

theorem getUsersWithBirthdayNow_returns_due_witness :
    (∀ loc i, (tzFixture loc i).minute < 60) ∧
    userSingapore ∈ getUsersWithBirthdayNow tzFixture instantJune12
      [userSingapore, userNewYork] ∧
    userNewYork ∉ getUsersWithBirthdayNow tzFixture instantJune12
      [userSingapore, userNewYork] := by
  refine ⟨tzFixture_minute_lt, ?_, ?_⟩
  · exact (getUsersWithBirthdayNow_returns_due tzFixture instantJune12
        [userSingapore, userNewYork] userSingapore tzFixture_minute_lt).mpr
      ⟨by simp, by decide, by decide, by decide, by decide,
        fun ts hts => by cases hts; decide⟩
  · intro hmem
    have hdue := ((getUsersWithBirthdayNow_returns_due tzFixture instantJune12
        [userSingapore, userNewYork] userNewYork tzFixture_minute_lt).mp hmem).2
    unfold dueNowAmended at hdue
    exact absurd hdue.2.1 (by decide)

/-! ## The EventBridge scheduler service (`scheduleMessage`)

The repository holds two versions of `SchedulerService.scheduleMessage`.
Both name the schedule `userId ++ "_" ++ date` and attach the message as
payload, with a one-shot cron carrying an explicit year.  EventBridge
evaluates cron expressions in UTC.

* The version under `src/services/scheduler.ts` builds
  `cron(0 ${scheduleTime.hour} ${day} ${month} ? ${year})` where
  `scheduleTime` is 9:00 *in the user's zone*, whose `.hour` component is
  always the local `9` — so the trigger fires at 09:00 UTC regardless of
  the user's timezone.
* The other version builds 9:00 AM local on the date in the user's zone,
  converts it `toUTC()`, and uses the converted minute/hour/day/month/year
  — the exact UTC instant of local 9 AM (luxon's zone-aware conversion
  handles DST).  The conversion is the external tz database, passed here
  as `utc9`. -/

structure CronExpr where
  minute : Nat
  hour : Nat
  day : Nat
  month : Nat
  year : Nat
deriving DecidableEq

structure BirthdayMessage where
  userId : String
  firstName : String
  lastName : String
  location : String
deriving DecidableEq

structure ScheduleReq where
  name : String
  expr : CronExpr
  payload : BirthdayMessage
deriving DecidableEq

/-- `src/services/scheduler.ts` version: local hour 9 written straight
into the UTC cron.  An unparseable date makes `CreateSchedule` fail and
the service throw, modelled as `none`. -/
def scheduleMessageSrc (msg : BirthdayMessage) (date : String) : Option ScheduleReq :=
  match parseISODate date with
  | none => none
  | some d => some { name := msg.userId ++ "_" ++ date,
                     expr := ⟨0, 9, d.day, d.month, d.year⟩,
                     payload := msg }

/-- The other repository version: cron fields from the UTC conversion of
9:00 AM local on `date` in the user's zone (`utc9`). -/
def scheduleMessageUTC (utc9 : String → Date → LocalDateTime) (msg : BirthdayMessage)
    (date : String) : Option ScheduleReq :=
  match parseISODate date with
  | none => none
  | some d => some { name := msg.userId ++ "_" ++ date,
                     expr := ⟨(utc9 msg.location d).minute, (utc9 msg.location d).hour,
                              (utc9 msg.location d).day, (utc9 msg.location d).month,
                              (utc9 msg.location d).year⟩,
                     payload := msg }

/-- UTC instants of 9:00 AM local on winter dates: Tokyo is UTC+9 all
year (00:00 UTC same day); New York is UTC-5 in January (14:00 UTC) —
the same values the repository's own scheduler test expects. -/
def utc9Fixture : String → Date → LocalDateTime := fun loc d =>
  if loc = "Asia/Tokyo" then ⟨d.year, d.month, d.day, 0, 0⟩
  else if loc = "America/New_York" then ⟨d.year, d.month, d.day, 14, 0⟩
  else ⟨d.year, d.month, d.day, 9, 0⟩

def tokyoMessage : BirthdayMessage :=
  { userId := "test-user", firstName := "John", lastName := "Doe",
    location := "Asia/Tokyo" }

/-- C7: the `src/services/scheduler.ts` version registers, under the
per-`(userId, date)` name, a trigger whose UTC cron hour is the *local*
hour 9 — for a Tokyo user on 2024-01-15 it fires at 09:00 UTC (18:00
Tokyo), while the UTC instant corresponding to 9:00 AM Tokyo is 00:00
UTC, the cron produced by the repository's other version (and expected by
the repository's own scheduler test). -/
theorem scheduleMessageSrc_ignores_timezone :
    scheduleMessageSrc tokyoMessage "2024-01-15" =
      some { name := "test-user_2024-01-15", expr := ⟨0, 9, 15, 1, 2024⟩,
             payload := tokyoMessage } ∧
    scheduleMessageUTC utc9Fixture tokyoMessage "2024-01-15" =
      some { name := "test-user_2024-01-15", expr := ⟨0, 0, 15, 1, 2024⟩,
             payload := tokyoMessage } ∧
    (⟨0, 9, 15, 1, 2024⟩ : CronExpr) ≠ ⟨0, 0, 15, 1, 2024⟩ := by
  refine ⟨by decide, by decide, by decide⟩

/-! ## The DynamoDB user store (`DynamoDBService.createUser` / `deleteUser`)

The users table is keyed by `(userId, sk)`; every item carries the constant
`sk = "USER#metadata"`, so `userId` alone identifies an item and the table
is a map from `userId`.  `createUser` validates the location against the
IANA database (external, hence the `validZone` parameter) and the birthday
via `DateTime.fromISO`, generates `userId = randomUUID()` (a parameter of
the model, fresh per call), derives `birthdayMD = toFormat('MM-dd')`, sets
`createdAt = updatedAt = now`, and performs a `PutCommand` conditional on
`attribute_not_exists(userId) AND attribute_not_exists(sk)`. -/

structure DynUser where
  userId : String
  sk : String
  firstName : String
  lastName : String
  birthday : String
  location : String
  birthdayMD : String
  createdAt : Nat
  updatedAt : Nat
deriving DecidableEq

abbrev UsersTable := String → Option DynUser

inductive UserError
  | invalidLocation (loc : String)
  | invalidBirthday (b : String)
  | alreadyExists (userId : String)
  | notFound (userId : String)
deriving DecidableEq

/-- The item stored by `createUser`. -/
def mkUser (uuid : String) (now : Nat) (firstName lastName birthday loc : String)
    (bd : Date) : DynUser :=
  { userId := uuid, sk := "USER#metadata", firstName := firstName, lastName := lastName,
    birthday := birthday, location := loc, birthdayMD := formatMMdd bd,
    createdAt := now, updatedAt := now }

def createUser (validZone : String → Bool) (users : UsersTable) (uuid : String) (now : Nat)
    (firstName lastName birthday loc : String) : Except UserError (UsersTable × DynUser) :=
  if validZone loc then
    match parseISODate birthday with
    | none => .error (.invalidBirthday birthday)
    | some bd =>
      match users uuid with
      | some _ => .error (.alreadyExists uuid)
      | none =>
        .ok (fun k => if k = uuid then some (mkUser uuid now firstName lastName birthday loc bd)
              else users k,
            mkUser uuid now firstName lastName birthday loc bd)
  else .error (.invalidLocation loc)

theorem isDigit_toNat_bounds (c : Char) (h : c.isDigit = true) :
    48 ≤ c.toNat ∧ c.toNat ≤ 57 := by
  unfold Char.isDigit at h
  simp only [Bool.and_eq_true, decide_eq_true_eq] at h
  obtain ⟨h1, h2⟩ := h
  unfold Char.toNat
  exact ⟨h1, h2⟩

theorem ofNat_digitVal_add (c : Char) (h : c.isDigit = true) :
    Char.ofNat (digitVal c + 48) = c := by
  obtain ⟨h1, _⟩ := isDigit_toNat_bounds c h
  have he : digitVal c + 48 = c.toNat := by unfold digitVal; omega
  rw [he, Char.ofNat_toNat]

theorem pad2_digits (c1 c2 : Char) (h1 : c1.isDigit = true) (h2 : c2.isDigit = true) :
    pad2 (10 * digitVal c1 + digitVal c2) = ⟨[c1, c2]⟩ := by
  obtain ⟨b1, b1'⟩ := isDigit_toNat_bounds c1 h1
  obtain ⟨b2, b2'⟩ := isDigit_toNat_bounds c2 h2
  unfold pad2
  have e1 : (10 * digitVal c1 + digitVal c2) / 10 % 10 + 48 = digitVal c1 + 48 := by
    unfold digitVal
    omega
  have e2 : (10 * digitVal c1 + digitVal c2) % 10 + 48 = digitVal c2 + 48 := by
    unfold digitVal
    omega
  rw [e1, e2, ofNat_digitVal_add c1 h1, ofNat_digitVal_add c2 h2]

/-- The `MM-dd` rendering of a parsed `YYYY-MM-DD` string is literally its
last five characters. -/
theorem formatMMdd_drop (s : String) (d : Date) (h : parseISODate s = some d) :
    formatMMdd d = String.mk (s.toList.drop 5) := by
  unfold parseISODate at h
  split at h
  case h_1 y1 y2 y3 y4 c1 m1 m2 c2 d1 d2 heq =>
    split at h
    case isTrue hcond =>
      dsimp only at h
      split at h
      case isTrue hrange =>
        injection h with h'
        subst h'
        obtain ⟨hy1, hy2, hy3, hy4, hc1, hm1, hm2, hc2, hd1, hd2⟩ := hcond
        unfold formatMMdd
        rw [heq]
        subst hc2
        rw [show List.drop 5 [y1, y2, y3, y4, c1, m1, m2, '-', d1, d2] =
          [m1, m2, '-', d1, d2] from rfl]
        rw [pad2_digits m1 m2 hm1 hm2, pad2_digits d1 d2 hd1 hd2]
        rfl
      case isFalse => exact absurd h (by simp)
    case isFalse => exact absurd h (by simp)
  case h_2 => exact absurd h (by simp)

/-- C10: `createUser` draws a fresh random UUID inside each call, so the
conditional-write conflict branch is unreachable in practice: whenever the
generated UUID is not already a stored key, a call with a valid location
and birthday succeeds (no `alreadyExists` error), storing exactly one new
item whose `birthdayMD` is the `MM-dd` projection (the last five
characters) of the given birthday and whose `createdAt` equals
`updatedAt`. -/
theorem createUser_fresh_uuid_succeeds (validZone : String → Bool) (users : UsersTable)
    (uuid : String) (now : Nat) (firstName lastName birthday loc : String) (bd : Date)
    (hloc : validZone loc = true) (hbd : parseISODate birthday = some bd)
    (hfresh : users uuid = none) :
    ∃ users' user, createUser validZone users uuid now firstName lastName birthday loc =
        .ok (users', user) ∧
      user.userId = uuid ∧ user.sk = "USER#metadata" ∧
      user.birthdayMD = String.mk (birthday.toList.drop 5) ∧
      user.createdAt = now ∧ user.updatedAt = now ∧
      users' uuid = some user ∧ (∀ k, k ≠ uuid → users' k = users k) := by
  unfold createUser
  simp only [hloc, if_true, hbd, hfresh]
  exact ⟨_, _, rfl, rfl, rfl, formatMMdd_drop birthday bd hbd, rfl, rfl, if_pos rfl,
    fun k hk => if_neg hk⟩

theorem createUser_fresh_uuid_succeeds_witness :
    ((fun s => s == "America/New_York") "America/New_York" = true) ∧
    parseISODate "1990-01-15" = some ⟨1990, 1, 15⟩ ∧
    ((fun _ : String => (none : Option DynUser)) "uuid-1" = none) ∧
    (∃ users' user, createUser (fun s => s == "America/New_York") (fun _ => none)
        "uuid-1" 3 "John" "Doe" "1990-01-15" "America/New_York" = .ok (users', user) ∧
      user.userId = "uuid-1" ∧ user.sk = "USER#metadata" ∧
      user.birthdayMD = String.mk ("1990-01-15".toList.drop 5) ∧
      user.createdAt = 3 ∧ user.updatedAt = 3 ∧
      users' "uuid-1" = some user ∧
      (∀ k, k ≠ "uuid-1" → users' k = (fun _ => (none : Option DynUser)) k)) :=
  ⟨by decide, by decide, rfl,
    createUser_fresh_uuid_succeeds (fun s => s == "America/New_York") (fun _ => none)
      "uuid-1" 3 "John" "Doe" "1990-01-15" "America/New_York" ⟨1990, 1, 15⟩
      (by decide) (by decide) rfl⟩

/-! ## Trigger cancellation and the users handler DELETE branch

`SchedulerService.deleteSchedule(userId, date)` sends a
`DeleteScheduleCommand` for the name `userId ++ "_" ++ date`.  AWS rejects
deletion of a non-existent schedule (ResourceNotFoundException), and the
service's catch wraps *every* failure into a thrown
`Failed to delete schedule`.  The scheduler's state is the list of
registered schedule names.

In the users handler's DELETE branch, the user is deleted first; then the
handler looks up the message log for `userId_today` and calls
`deleteSchedule` only when the log exists.  A thrown
`Failed to delete schedule` reaches the outer catch, whose message checks
(`not found` → 404, `already exists` → 409, JSON → 400) all miss, so the
response is 500. -/

inductive SchedulerError
  | deleteFailed
deriving DecidableEq

def deleteSchedule (scheds : List String) (userId date : String) :
    Except SchedulerError (List String) :=
  if (userId ++ "_" ++ date) ∈ scheds then .ok (scheds.erase (userId ++ "_" ++ date))
  else .error .deleteFailed

/-- `DynamoDBService.deleteUser`: a `DeleteCommand` conditional on the
item existing; NotFound otherwise. -/
def deleteUser (users : UsersTable) (userId : String) : Except UserError UsersTable :=
  match users userId with
  | none => .error (.notFound userId)
  | some _ => .ok (fun k => if k = userId then none else users k)

inductive HttpOutcome
  | noContent
  | notFound404
  | serverError500
deriving DecidableEq

/-- The DELETE branch of the users handler: resulting users table,
resulting schedule names, and the HTTP outcome. -/
def usersDeleteHandler (users : UsersTable) (logs : LogsTable) (scheds : List String)
    (userId today : String) : UsersTable × List String × HttpOutcome :=
  match deleteUser users userId with
  | .error _ => (users, scheds, .notFound404)
  | .ok users' =>
    match logs (userId ++ "_" ++ today) with
    | none => (users', scheds, .noContent)
    | some _ =>
      match deleteSchedule scheds userId today with
      | .ok scheds' => (users', scheds', .noContent)
      | .error _ => (users', scheds, .serverError500)

def sampleUser : DynUser :=
  mkUser "u1" 0 "John" "Doe" "1990-06-12" "Asia/Singapore" ⟨1990, 6, 12⟩

def sampleUsers : UsersTable := fun k => if k = "u1" then some sampleUser else none

/-- C8 counterexample: deleting user `u1` while a delivery record exists
for `u1_2024-06-12` but no trigger of that name is registered makes
`deleteSchedule` throw, and the handler answers 500 — cancelling a
non-existent trigger propagates an error instead of failing silently. -/
theorem usersDelete_missing_trigger_500 :
    (usersDeleteHandler sampleUsers sampleLogs [] "u1" "2024-06-12").2.2 =
      .serverError500 := rfl

/-- C8 (amended): on user delete, cancellation of the pending trigger is
attempted only when a delivery record for `userId_today` exists; with no
record the handler skips cancellation silently (204, scheduler untouched);
when a record and the trigger both exist, the trigger is cancelled (204);
but when a record exists and the trigger does not, the wrapped
`Failed to delete schedule` error propagates and the handler returns 500
with the scheduler state unchanged. -/
theorem usersDeleteHandler_cancellation (users : UsersTable) (logs : LogsTable)
    (scheds : List String) (userId today : String)
    (huser : (users userId).isSome = true) :
    (logs (userId ++ "_" ++ today) = none →
      usersDeleteHandler users logs scheds userId today =
        (fun k => if k = userId then none else users k, scheds, .noContent)) ∧
    (∀ log, logs (userId ++ "_" ++ today) = some log →
      (userId ++ "_" ++ today) ∉ scheds →
      (usersDeleteHandler users logs scheds userId today).2.2 = .serverError500 ∧
      (usersDeleteHandler users logs scheds userId today).2.1 = scheds) ∧
    (∀ log, logs (userId ++ "_" ++ today) = some log →
      (userId ++ "_" ++ today) ∈ scheds →
      (usersDeleteHandler users logs scheds userId today).2.2 = .noContent ∧
      (usersDeleteHandler users logs scheds userId today).2.1 =
        scheds.erase (userId ++ "_" ++ today)) := by
  cases hu : users userId with
  | none => rw [hu] at huser; exact absurd huser (by decide)
  | some u =>
    unfold usersDeleteHandler deleteUser
    simp only [hu]
    refine ⟨fun hlog => ?_, fun log hlog hnot => ?_, fun log hlog hmem => ?_⟩
    · simp only [hlog]
    · simp only [hlog]
      unfold deleteSchedule
      rw [if_neg hnot]
      exact ⟨rfl, rfl⟩
    · simp only [hlog]
      unfold deleteSchedule
      rw [if_pos hmem]
      exact ⟨rfl, rfl⟩

theorem usersDeleteHandler_cancellation_witness :
    (sampleUsers "u1").isSome = true ∧
    sampleLogs ("u1" ++ "_" ++ "2024-06-12") = some sampleLog ∧
    ("u1" ++ "_" ++ "2024-06-12") ∉ ([] : List String) ∧
    ((usersDeleteHandler sampleUsers sampleLogs [] "u1" "2024-06-12").2.2 =
        .serverError500 ∧
      (usersDeleteHandler sampleUsers sampleLogs [] "u1" "2024-06-12").2.1 =
        ([] : List String)) :=
  ⟨by decide, by decide, by decide,
    (usersDeleteHandler_cancellation sampleUsers sampleLogs [] "u1" "2024-06-12"
      (by decide)).2.1 sampleLog (by decide) (by decide)⟩

/-! ## Batch processing of a locator result set

`src/handlers/daily.ts` awaits `scheduleMessage` for each due user inside
one try wrapping the whole loop; the first failure aborts the loop and
rethrows, so later users are never scheduled.  The due-now handler variant
(`handlers/birthday.ts`) wraps each user in its own try/catch and
continues with the next user after a failure.  Per-user outcomes are an
input (`schedOk` / `webhookOk`); results list the users actually
processed, and for the daily handler whether it threw. -/

def dailyHandler : List DynUser → (String → Bool) → List String × Bool
  | [], _ => ([], false)
  | u :: rest, schedOk =>
    if schedOk u.userId then
      ((dailyHandler rest schedOk).1.cons u.userId, (dailyHandler rest schedOk).2)
    else ([], true)

def birthdayHandler : List PgUser → (String → Bool) → List String
  | [], _ => []
  | u :: rest, webhookOk =>
    if webhookOk u.id then u.id :: birthdayHandler rest webhookOk
    else birthdayHandler rest webhookOk

def dailyUser1 : DynUser := mkUser "u1" 0 "John" "Doe" "1990-06-12" "Asia/Singapore" ⟨1990, 6, 12⟩

def dailyUser2 : DynUser := mkUser "u2" 0 "Jane" "Smith" "1991-06-12" "Europe/London" ⟨1991, 6, 12⟩

/-- C9: with two due users where the first one's scheduling step throws,
the daily aggregation handler aborts the loop and rethrows — the second
user is never processed — whereas the due-now handler variant isolates the
failure per user and still processes the second user.  (The repository's
own daily-handler test expects the non-aborting behaviour.) -/
theorem dailyHandler_aborts_on_failure :
    dailyHandler [dailyUser1, dailyUser2] (fun uid => uid != "u1") = ([], true) ∧
    birthdayHandler [userSingapore, userNewYork] (fun uid => uid != "u-sg") = ["u-ny"] := by
  constructor <;> decide

end BirthdayGreeting
